import Mathlib

/-!
Verification of the btca repository-lifecycle and configuration core.

Shallow embedding of the config service (apps/cli/src/services/config.ts),
the git helper layer (apps/cli/src/lib/utils/git.ts), the path helpers
(src/lib/utils/files.ts) and the generic JSON store (lib/json-store.ts).

External effects (git subprocesses, the filesystem) are modelled by an
environment of oracles describing their observable outcomes, and the
mutable service state (in-memory config, persisted config document,
existing clone directories) is threaded explicitly.  Every operation also
records the trace of external actions it performed, so that claims of the
form "no clone / no validation happened" are statable.
-/

namespace Btca

/-! ### Node path.posix primitives, over lists of characters

The source manipulates paths with string operations (startsWith, slice)
plus node's path.join.  We embed them over List Char; String-level
wrappers are defined below. -/

namespace NodePath

/-- Split a path on the separator, keeping empty segments
(so "/a//b" yields ["", "a", "", "b"]). -/
def splitSeg : List Char → List (List Char)
  | [] => [[]]
  | c :: rest =>
    if c = '/' then [] :: splitSeg rest
    else
      match splitSeg rest with
      | [] => [[c]]
      | s :: ss => (c :: s) :: ss

/-- One step of node normalizeString: skip empty and "." segments,
resolve ".." against the stack (keeping it for relative paths that
escape above their root), push everything else. -/
def resolveStep (allowAbove : Bool) (acc : List (List Char)) (s : List Char) : List (List Char) :=
  if s.isEmpty || s == ['.'] then acc
  else if s == ['.', '.'] then
    if !acc.isEmpty && !(acc.getLast? == some ['.', '.']) then acc.dropLast
    else if allowAbove then acc ++ [['.', '.']] else acc
  else acc ++ [s]

def resolveSegs (allowAbove : Bool) (segs : List (List Char)) : List (List Char) :=
  segs.foldl (resolveStep allowAbove) []

/-- Join segments with the separator. -/
def intercalateSlash : List (List Char) → List Char
  | [] => []
  | [s] => s
  | s :: rest => s ++ '/' :: intercalateSlash rest

/-- Node path.posix.normalize. -/
def normalize (p : List Char) : List Char :=
  if p.isEmpty then ['.']
  else
    let abs := p.head? == some '/'
    let trailing := p.getLast? == some '/'
    let body := intercalateSlash (resolveSegs (!abs) (splitSeg p))
    if body.isEmpty then
      if abs then ['/'] else if trailing then ['.', '/'] else ['.']
    else
      (if abs then '/' :: body else body) ++ (if trailing then ['/'] else [])

/-- Node path.posix.join restricted to two arguments: empty parts are
dropped, the rest are concatenated with the separator and normalized. -/
def join2 (a b : List Char) : List Char :=
  if a.isEmpty && b.isEmpty then ['.']
  else normalize (if a.isEmpty then b else if b.isEmpty then a else a ++ '/' :: b)

/-- JS String.prototype.startsWith for char lists. -/
def startsWithL (p pre : List Char) : Bool := p.take pre.length == pre

/-- expandHome from src/lib/utils/files.ts:
filePath.startsWith("~/") ? path.join(os.homedir(), filePath.slice(2)) : filePath.
The parameter home stands for os.homedir(). -/
def expandHome (home p : List Char) : List Char :=
  if startsWithL p ['~', '/'] then join2 home (p.drop 2) else p

/-- collapseHome from apps/cli/src/services/config.ts:
home && path.startsWith(home) ? "~" + path.slice(home.length) : path.
The parameter home stands for process.env.HOME ?? process.env.USERPROFILE ?? "". -/
def collapseHome (home p : List Char) : List Char :=
  if !home.isEmpty && startsWithL p home then '~' :: p.drop home.length else p

/-- A good path segment: nonempty, not a dot segment, separator-free. -/
def goodSeg (s : List Char) : Bool :=
  !s.isEmpty && s != ['.'] && s != ['.', '.'] && !s.contains '/'

/-- A canonical segment list: nonempty, all segments good. -/
def canonSegs (segs : List (List Char)) : Bool :=
  !segs.isEmpty && segs.all goodSeg

end NodePath

/-- String-level expandHome (src/lib/utils/files.ts). -/
def expandHomeStr (home p : String) : String :=
  String.mk (NodePath.expandHome home.data p.data)

/-- String-level collapseHome (apps/cli/src/services/config.ts). -/
def collapseHomeStr (home p : String) : String :=
  String.mk (NodePath.collapseHome home.data p.data)

/-- String-level node path.join of two parts. -/
def joinPath (a b : String) : String :=
  String.mk (NodePath.join2 a.data b.data)

/-! ### Data model (configSchema / repoSchema in config.ts) -/

/-- repoSchema: name, url, branch required strings, specialNotes optional. -/
structure Repo where
  name : String
  url : String
  branch : String
  specialNotes : Option String
deriving DecidableEq, Repr

/-- configSchema. -/
structure Config where
  promptsDirectory : String
  reposDirectory : String
  port : Int
  maxInstances : Int
  repos : List Repo
  model : String
  provider : String
deriving DecidableEq, Repr

/-- DEFAULT_CONFIG from config.ts. -/
def DEFAULT_CONFIG : Config :=
  { promptsDirectory := "~/.config/btca/prompts"
    reposDirectory := "~/.config/btca/repos"
    port := 3420
    maxInstances := 5
    repos :=
      [ { name := "svelte"
          url := "https://github.com/sveltejs/svelte.dev"
          branch := "main"
          specialNotes := some "This is the svelte docs website repo, not the actual svelte repo. Use the docs to answer questions about svelte." }
      , { name := "tailwindcss"
          url := "https://github.com/tailwindlabs/tailwindcss.com"
          branch := "main"
          specialNotes := some "This is the tailwindcss docs website repo, not the actual tailwindcss repo. Use the docs to answer questions about tailwindcss." }
      , { name := "nextjs"
          url := "https://github.com/vercel/next.js"
          branch := "canary"
          specialNotes := none } ]
    model := "big-pickle"
    provider := "opencode" }

/-- Error outcomes; each constructor corresponds to one ConfigError message
produced by the source (plus the two distinguished load outcomes below). -/
inductive CfgErr where
  | alreadyExists (name : String)
  | notFound (name : String)
  | validationFailed
  | cloneFailed
  | pullFailed
  | writeFailed
  | removeFailed
  | importNotFound
  | importReadFailed
  | importNotJson
  | importSchema
deriving DecidableEq, Repr

/-- External actions an operation can perform, for frame/purity claims. -/
inductive Action where
  | lookup (name : String)
  | validate (url : String)
  | clone (dir url branch : String)
  | pull (dir branch : String)
  | fetch (dir : String)
  | writeFile
  | removeDir (dir : String)
deriving DecidableEq, Repr

/-! ### JSON documents and effect Schema decoding -/

/-- JSON values; numbers are restricted to integers, which covers every
number appearing in the config schema claims. -/
inductive Json where
  | null
  | bool (b : Bool)
  | num (n : Int)
  | str (s : String)
  | arr (elems : List Json)
  | obj (fields : List (String × Json))

/-- Field lookup in a parsed JSON object; JSON.parse keeps the last
occurrence of a duplicated key. -/
def jget (fields : List (String × Json)) (k : String) : Option Json :=
  fields.reverse.lookup k

def asStr : Option Json → Option String
  | some (Json.str s) => some s
  | _ => none

def asNum : Option Json → Option Int
  | some (Json.num n) => some n
  | _ => none

/-- Schema.decodeUnknown of repoSchema: required string fields name, url,
branch; optional string field specialNotes; excess properties ignored. -/
def decodeRepo (j : Json) : Option Repo :=
  match j with
  | Json.obj fields =>
    match asStr (jget fields "name"), asStr (jget fields "url"),
          asStr (jget fields "branch") with
    | some n, some u, some b =>
      match jget fields "specialNotes" with
      | none => some ⟨n, u, b, none⟩
      | some (Json.str s) => some ⟨n, u, b, some s⟩
      | some _ => none
    | _, _, _ => none
  | _ => none

/-- Schema.decodeUnknown of configSchema. -/
def decodeConfig (j : Json) : Option Config :=
  match j with
  | Json.obj fields =>
    match asStr (jget fields "promptsDirectory"), asStr (jget fields "reposDirectory"),
          asNum (jget fields "port"), asNum (jget fields "maxInstances"),
          jget fields "repos", asStr (jget fields "model"), asStr (jget fields "provider") with
    | some pd, some rd, some po, some mi, some (Json.arr rs), some mo, some pr =>
      match rs.mapM decodeRepo with
      | some repos => some ⟨pd, rd, po, mi, repos, mo, pr⟩
      | none => none
    | _, _, _, _, _, _, _ => none
  | _ => none

/-! ### Service state and environment -/

/-- Mutable state of the config service: the in-memory config (directories
expanded), the persisted config document (directories collapsed; none if
the file is absent), and the set of existing clone directories. -/
structure World where
  config : Config
  file : Option Config
  dirs : List String
deriving DecidableEq, Repr

/-- Oracles for the external collaborators: home directory, process cwd,
and the observable outcome of each git/filesystem effect. -/
structure Env where
  home : String
  cwd : String
  validateOk : String → Bool
  cloneOk : String → String → String → Bool
  pullOk : String → String → Bool
  writeOk : Bool
  removeOk : String → Bool

/-- Result of one service operation: outcome, post-state, action trace. -/
structure StepResult (α : Type) where
  result : Except CfgErr α
  world : World
  trace : List Action

/-- Collapse the two directory fields for storage (writeConfig / exportConfig). -/
def collapseConfig (home : String) (c : Config) : Config :=
  { c with promptsDirectory := collapseHomeStr home c.promptsDirectory
           reposDirectory := collapseHomeStr home c.reposDirectory }

/-- Expand the two directory fields for the runtime config. -/
def expandDirs (home : String) (c : Config) : Config :=
  { c with promptsDirectory := expandHomeStr home c.promptsDirectory
           reposDirectory := expandHomeStr home c.reposDirectory }

/-- writeConfig from config.ts: writes the home-collapsed copy of the given
config to the config file and returns it; a failed write surfaces as a
ConfigError and leaves the file as it was. -/
def writeConfig (env : Env) (w : World) (c : Config) : Except CfgErr Config × World :=
  let cw := collapseConfig env.home c
  if env.writeOk then (Except.ok cw, { w with file := some cw })
  else (Except.error CfgErr.writeFailed, w)

/-! ### Repo registry operations (config.ts service closure) -/

/-- addRepo: duplicate-name check, then URL validation, then append and
persist.  Mirrors the source statement order, including the fact that the
in-memory config is replaced before the persistence attempt. -/
def addRepo (env : Env) (w : World) (repo : Repo) : StepResult Repo :=
  match w.config.repos.find? (fun r => r.name == repo.name) with
  | some _ => ⟨Except.error (CfgErr.alreadyExists repo.name), w, []⟩
  | none =>
    if env.validateOk repo.url then
      let c2 := { w.config with repos := w.config.repos ++ [repo] }
      let w2 := { w with config := c2 }
      match writeConfig env w2 c2 with
      | (Except.ok _, w3) => ⟨Except.ok repo, w3, [Action.validate repo.url, Action.writeFile]⟩
      | (Except.error e, w3) => ⟨Except.error e, w3, [Action.validate repo.url]⟩
    else ⟨Except.error CfgErr.validationFailed, w, [Action.validate repo.url]⟩

/-- A sequence of addRepo calls (arbitrary oracle outcomes per call),
keeping only the resulting state. -/
def runAddAll (w : World) (steps : List (Env × Repo)) : World :=
  steps.foldl (fun w s => (addRepo s.1 w s.2).world) w

/-- updateModel: replaces provider/model in memory, persists, and returns
the new pair. -/
def updateModel (env : Env) (w : World) (provider model : String) : StepResult (String × String) :=
  let c2 := { w.config with provider := provider, model := model }
  let w2 := { w with config := c2 }
  match writeConfig env w2 c2 with
  | (Except.ok _, w3) => ⟨Except.ok (c2.provider, c2.model), w3, [Action.writeFile]⟩
  | (Except.error e, w3) => ⟨Except.error e, w3, []⟩

/-- cloneOrUpdateOneRepoLocally: returns a synthetic descriptor for
"local"; otherwise looks the repo up and pulls when the clone directory
exists, clones when it does not. -/
def cloneOrUpdateOneRepoLocally (env : Env) (w : World) (repoName : String) : StepResult Repo :=
  if repoName == "local" then
    ⟨Except.ok ⟨"local", "local", "local", none⟩, w, []⟩
  else
    match w.config.repos.find? (fun r => r.name == repoName) with
    | none => ⟨Except.error (CfgErr.notFound repoName), w, [Action.lookup repoName]⟩
    | some repo =>
      let repoDir := joinPath w.config.reposDirectory repo.name
      let branch := repo.branch
      if repoDir ∈ w.dirs then
        if env.pullOk repoDir branch then
          ⟨Except.ok repo, w, [Action.lookup repoName, Action.pull repoDir branch]⟩
        else
          ⟨Except.error CfgErr.pullFailed, w, [Action.lookup repoName, Action.pull repoDir branch]⟩
      else
        if env.cloneOk repoDir repo.url branch then
          ⟨Except.ok repo, { w with dirs := repoDir :: w.dirs },
            [Action.lookup repoName, Action.clone repoDir repo.url branch]⟩
        else
          ⟨Except.error CfgErr.cloneFailed, w,
            [Action.lookup repoName, Action.clone repoDir repo.url branch]⟩

/-- getRepoPath: "local" resolves to the process cwd; otherwise ensure the
clone is present and current, then join the repos directory with the name. -/
def getRepoPath (env : Env) (w : World) (repoName : String) : StepResult String :=
  if repoName == "local" then ⟨Except.ok env.cwd, w, []⟩
  else
    match cloneOrUpdateOneRepoLocally env w repoName with
    | ⟨Except.ok repo, w2, tr⟩ =>
      ⟨Except.ok (joinPath w2.config.reposDirectory repo.name), w2, tr⟩
    | ⟨Except.error e, w2, tr⟩ => ⟨Except.error e, w2, tr⟩

/-- cleanRepoInternal: "local" is skipped with a warning (success); an
unknown name fails NotFound; otherwise the clone directory is removed
recursively when present and the operation is a no-op when absent.  The
registry and the persisted config file are never touched. -/
def cleanRepo (env : Env) (w : World) (repoName : String) : StepResult Unit :=
  if repoName == "local" then ⟨Except.ok (), w, []⟩
  else
    match w.config.repos.find? (fun r => r.name == repoName) with
    | none => ⟨Except.error (CfgErr.notFound repoName), w, []⟩
    | some repo =>
      let repoDir := joinPath w.config.reposDirectory repo.name
      if repoDir ∈ w.dirs then
        if env.removeOk repoDir then
          ⟨Except.ok (), { w with dirs := w.dirs.filter (fun d => d != repoDir) },
            [Action.removeDir repoDir]⟩
        else ⟨Except.error CfgErr.removeFailed, w, [Action.removeDir repoDir]⟩
      else ⟨Except.ok (), w, []⟩

/-! ### Config file loading and import -/

/-- Observable content of a JSON file on disk, as seen through
fs.readFileString and JSON.parse: blank means the trimmed content is
empty, notJson means nonblank content on which JSON.parse throws. -/
inductive FileContent where
  | blank
  | notJson
  | json (j : Json)

/-- State of a config/import file: absent, unreadable, or readable content. -/
inductive ImportFile where
  | absent
  | readError
  | content (c : FileContent)

/-- importConfig from config.ts: missing file, unreadable file, invalid
JSON and schema violations each fail with a ConfigError before any state
is touched; a valid document replaces the in-memory config (directories
expanded) and is persisted. -/
def importConfig (env : Env) (w : World) (f : ImportFile) : StepResult Unit :=
  match f with
  | ImportFile.absent => ⟨Except.error CfgErr.importNotFound, w, []⟩
  | ImportFile.readError => ⟨Except.error CfgErr.importReadFailed, w, []⟩
  | ImportFile.content FileContent.blank => ⟨Except.error CfgErr.importNotJson, w, []⟩
  | ImportFile.content FileContent.notJson => ⟨Except.error CfgErr.importNotJson, w, []⟩
  | ImportFile.content (FileContent.json j) =>
    match decodeConfig j with
    | none => ⟨Except.error CfgErr.importSchema, w, []⟩
    | some c0 =>
      let c2 := expandDirs env.home c0
      let w2 := { w with config := c2 }
      match writeConfig env w2 c2 with
      | (Except.ok _, w3) => ⟨Except.ok (), w3, [Action.writeFile]⟩
      | (Except.error e, w3) => ⟨Except.error e, w3, []⟩

/-- Outcomes of loading the live config at process start. -/
inductive LoadErr where
  | storage
  | parseDefect
  | schema
deriving DecidableEq, Repr

/-- onStartLoadConfig from config.ts: an absent file is replaced by the
persisted DEFAULT_CONFIG and the expanded defaults are returned; a read
failure is a ConfigError; JSON.parse is NOT guarded, so blank or
unparsable content throws an uncaught exception (a fiber defect); a
schema violation propagates the Schema.decode ParseError; a valid
document is returned with its directories expanded. -/
def onStartLoadConfig (env : Env) (f : ImportFile) : Except LoadErr Config :=
  match f with
  | ImportFile.absent =>
    if env.writeOk then Except.ok (expandDirs env.home DEFAULT_CONFIG)
    else Except.error LoadErr.storage
  | ImportFile.readError => Except.error LoadErr.storage
  | ImportFile.content FileContent.blank => Except.error LoadErr.parseDefect
  | ImportFile.content FileContent.notJson => Except.error LoadErr.parseDefect
  | ImportFile.content (FileContent.json j) =>
    match decodeConfig j with
    | none => Except.error LoadErr.schema
    | some c => Except.ok (expandDirs env.home c)

/-- JsonStore.load from lib/json-store.ts (the generic storage primitive,
used by the bookmark store): absent, blank, unparsable and schema-invalid
files all degrade to the provided default; only a read failure surfaces
as a storage error. -/
def jsonStoreLoad {T : Type} (decode : Json → Option T) (defaultData : T)
    (f : ImportFile) : Except LoadErr T :=
  match f with
  | ImportFile.absent => Except.ok defaultData
  | ImportFile.readError => Except.error LoadErr.storage
  | ImportFile.content FileContent.blank => Except.ok defaultData
  | ImportFile.content FileContent.notJson => Except.ok defaultData
  | ImportFile.content (FileContent.json j) =>
    match decode j with
    | none => Except.ok defaultData
    | some t => Except.ok t

/-! ### Repo status (getRepoStatus in apps/cli/src/lib/utils/git.ts) -/

/-- JS whitespace test, standing in for the regex class backslash-s. -/
def jsWhitespace (c : Char) : Bool := c.isWhitespace

/-- JS String.prototype.trim over char lists. -/
def jsTrim (s : List Char) : List Char :=
  ((s.dropWhile jsWhitespace).reverse.dropWhile jsWhitespace).reverse

/-- JS String.prototype.split on a whitespace-run regex, for strings with
no leading whitespace (the call site trims first): tokens are maximal
runs of non-whitespace, with a final empty token when the string ends in
whitespace, and the empty string yields one empty token. -/
def jsSplitWsAux (inTok : Bool) (acc : List Char) : List Char → List (List Char)
  | [] => [acc.reverse]
  | c :: rest =>
    if jsWhitespace c then
      if inTok then acc.reverse :: jsSplitWsAux false [] rest
      else jsSplitWsAux false [] rest
    else jsSplitWsAux true (c :: acc) rest

def jsSplitWs (s : List Char) : List (List Char) := jsSplitWsAux false [] s

def digitsToNat (ds : List Char) : Nat :=
  ds.foldl (fun n c => 10 * n + (c.toNat - '0'.toNat)) 0

/-- Leading-decimal-digit parse; none models NaN. -/
def parseDigits (cs : List Char) : Option Nat :=
  let ds := cs.takeWhile Char.isDigit
  if ds.isEmpty then none else some (digitsToNat ds)

/-- JS parseInt(s, 10): skip whitespace, optional sign, parse the leading
digit run; NaN (here none) when there is none. -/
def jsParseIntL (s : List Char) : Option Int :=
  match s.dropWhile jsWhitespace with
  | '-' :: rest => (parseDigits rest).map (fun n => -(n : Int))
  | '+' :: rest => (parseDigits rest).map (fun n => (n : Int))
  | t => (parseDigits t).map (fun n => (n : Int))

/-- Observable subprocess output consumed by getRepoStatus: the porcelain
status output, and the exit code and stdout of the left-right rev-list
count.  (The status subprocess exit code is ignored by the source.) -/
structure GitStatusOutput where
  statusOutput : String
  revExitCode : Int
  revOutput : String
deriving DecidableEq, Repr

/-- Result record; ahead/behind are JS numbers, none modelling NaN. -/
structure RepoStatus where
  dirty : Bool
  ahead : Option Int
  behind : Option Int
deriving DecidableEq, Repr

/-- getRepoStatus from git.ts: dirty iff the trimmed porcelain output is
nonempty; ahead/behind are parseInt of the first two whitespace-separated
fields of the trimmed rev-list output when it exited 0 and produced at
least two fields, and 0 otherwise. -/
def getRepoStatusModel (g : GitStatusOutput) : RepoStatus :=
  let dirty := decide (0 < (jsTrim g.statusOutput.data).length)
  let parts := jsSplitWs (jsTrim g.revOutput.data)
  if g.revExitCode == 0 && decide (2 ≤ parts.length) then
    { dirty := dirty
      ahead := jsParseIntL (parts.getD 0 [])
      behind := jsParseIntL (parts.getD 1 []) }
  else { dirty := dirty, ahead := some 0, behind := some 0 }

/-! ### Concrete sample values for witnesses and counterexamples -/

/-- An environment in which every external effect succeeds. -/
def envW : Env :=
  { home := "/home/u"
    cwd := "/work/here"
    validateOk := fun _ => true
    cloneOk := fun _ _ _ => true
    pullOk := fun _ _ => true
    writeOk := true
    removeOk := fun _ => true }

/-- An environment whose URL validation always fails. -/
def envBadUrl : Env := { envW with validateOk := fun _ => false }

def repoA : Repo := { name := "a", url := "https://example.com/a", branch := "main", specialNotes := none }

def repoB : Repo := { name := "b", url := "https://example.com/b", branch := "dev", specialNotes := none }

def cfg0 : Config :=
  { promptsDirectory := "/home/u/.config/btca/prompts"
    reposDirectory := "/home/u/.config/btca/repos"
    port := 3420
    maxInstances := 5
    repos := [repoA]
    model := "big-pickle"
    provider := "opencode" }

def w0 : World := { config := cfg0, file := some (collapseConfig "/home/u" cfg0), dirs := [] }

/-- A world whose clone directory for repo "a" exists. -/
def w0dir : World := { w0 with dirs := [joinPath cfg0.reposDirectory "a"] }

/-- A schema-valid JSON config document. -/
def jGood : Json :=
  Json.obj
    [ ("promptsDirectory", Json.str "~/prompts")
    , ("reposDirectory", Json.str "~/repos")
    , ("port", Json.num 4000)
    , ("maxInstances", Json.num 10)
    , ("repos", Json.arr [Json.obj [("name", Json.str "imported"), ("url", Json.str "https://example.com/r"), ("branch", Json.str "dev")]])
    , ("model", Json.str "imported-model")
    , ("provider", Json.str "imported-provider") ]

/-- The spec scenario document with repos not an array. -/
def jBad : Json := Json.obj [("repos", Json.str "not-an-array")]

/-- The config that jGood decodes to. -/
def cImported : Config :=
  { promptsDirectory := "~/prompts"
    reposDirectory := "~/repos"
    port := 4000
    maxInstances := 10
    repos := [{ name := "imported", url := "https://example.com/r", branch := "dev", specialNotes := none }]
    model := "imported-model"
    provider := "imported-provider" }

/-!
## Theorems

First the generic lemmas shared by several claims, then one theorem per
claim (with witnesses and counterexamples where required).
-/

/-- Claim C5: for the pseudo-repo name "local", getRepoPath and
cloneOrUpdateOneRepoLocally perform no registry lookup, no clone, no
pull, no fetch and no URL validation (empty action trace), never fail
(in particular never NotFound, whatever the registry contains), and
getRepoPath always resolves to the process working directory. -/
theorem C5_local_pseudo_repo :
    ∀ (env : Env) (w : World),
      getRepoPath env w "local" = ⟨Except.ok env.cwd, w, []⟩ ∧
      cloneOrUpdateOneRepoLocally env w "local" =
        ⟨Except.ok ⟨"local", "local", "local", none⟩, w, []⟩ := by
  intro env w
  exact ⟨rfl, rfl⟩

/-- Claim C10: a successful updateModel changes only the provider and
model fields of the in-memory configuration, persists the collapsed
document, and returns exactly the pair of arguments. -/
theorem C10_updateModel_frame :
    ∀ (env : Env) (w : World) (provider model : String),
      env.writeOk = true →
      (updateModel env w provider model).result = Except.ok (provider, model) ∧
      (updateModel env w provider model).world.config.promptsDirectory = w.config.promptsDirectory ∧
      (updateModel env w provider model).world.config.reposDirectory = w.config.reposDirectory ∧
      (updateModel env w provider model).world.config.port = w.config.port ∧
      (updateModel env w provider model).world.config.maxInstances = w.config.maxInstances ∧
      (updateModel env w provider model).world.config.repos = w.config.repos ∧
      (updateModel env w provider model).world.config.provider = provider ∧
      (updateModel env w provider model).world.config.model = model ∧
      (updateModel env w provider model).world.file =
        some (collapseConfig env.home { w.config with provider := provider, model := model }) := by
  intro env w provider model hw
  simp [updateModel, writeConfig, hw]

/-- Witness for C10 at a concrete environment and world. -/
theorem C10_updateModel_frame_witness :
    (updateModel envW w0 "openai" "gpt-4").result = Except.ok ("openai", "gpt-4") ∧
    (updateModel envW w0 "openai" "gpt-4").world.config.repos = w0.config.repos :=
  ⟨(C10_updateModel_frame envW w0 "openai" "gpt-4" rfl).1,
   (C10_updateModel_frame envW w0 "openai" "gpt-4" rfl).2.2.2.2.2.1⟩

/-- Claim C4: when the duplicate-name check passes but URL validation
fails, addRepo fails with ValidationFailed, performs no config write,
leaves the whole state unchanged, and the registry still does not
contain the candidate name. -/
theorem C4_addRepo_validation_aborts :
    ∀ (env : Env) (w : World) (repo : Repo),
      w.config.repos.find? (fun r => r.name == repo.name) = none →
      env.validateOk repo.url = false →
      addRepo env w repo =
        ⟨Except.error CfgErr.validationFailed, w, [Action.validate repo.url]⟩ ∧
      Action.writeFile ∉ (addRepo env w repo).trace ∧
      ∀ r ∈ (addRepo env w repo).world.config.repos, r.name ≠ repo.name := by
  intro env w repo hf hv
  have h1 : addRepo env w repo =
      ⟨Except.error CfgErr.validationFailed, w, [Action.validate repo.url]⟩ := by
    simp [addRepo, hf, hv]
  refine ⟨h1, ?_, ?_⟩
  · rw [h1]; simp
  · rw [h1]
    intro r hr
    have := List.find?_eq_none.mp hf r hr
    simpa using this

/-- Witness for C4: adding repo "b" with an unreachable URL to a registry
containing only "a" fails with ValidationFailed and changes nothing. -/
theorem C4_addRepo_validation_aborts_witness :
    addRepo envBadUrl w0 repoB =
      ⟨Except.error CfgErr.validationFailed, w0, [Action.validate repoB.url]⟩ :=
  (C4_addRepo_validation_aborts envBadUrl w0 repoB (by decide) rfl).1

/-- Claim C2: importConfig is all-or-nothing.  A missing file, blank or
unparsable JSON, and a schema violation each fail with an error and
leave the in-memory config and the persisted file exactly as they were;
a fully valid document replaces the config (directories expanded) and is
persisted. -/
theorem C2_import_all_or_nothing :
    (∀ (env : Env) (w : World),
        importConfig env w ImportFile.absent = ⟨Except.error CfgErr.importNotFound, w, []⟩) ∧
    (∀ (env : Env) (w : World),
        importConfig env w (ImportFile.content FileContent.blank) =
          ⟨Except.error CfgErr.importNotJson, w, []⟩) ∧
    (∀ (env : Env) (w : World),
        importConfig env w (ImportFile.content FileContent.notJson) =
          ⟨Except.error CfgErr.importNotJson, w, []⟩) ∧
    (∀ (env : Env) (w : World) (j : Json), decodeConfig j = none →
        importConfig env w (ImportFile.content (FileContent.json j)) =
          ⟨Except.error CfgErr.importSchema, w, []⟩) ∧
    (∀ (env : Env) (w : World) (j : Json) (c : Config),
        decodeConfig j = some c → env.writeOk = true →
        importConfig env w (ImportFile.content (FileContent.json j)) =
          ⟨Except.ok (),
           { w with config := expandDirs env.home c,
                    file := some (collapseConfig env.home (expandDirs env.home c)) },
           [Action.writeFile]⟩) := by
  refine ⟨fun env w => rfl, fun env w => rfl, fun env w => rfl, ?_, ?_⟩
  · intro env w j h
    simp [importConfig, h]
  · intro env w j c h hw
    simp [importConfig, h, writeConfig, hw]

/-- Witness for C2: the spec scenario document (repos not an array) is
rejected with the state untouched, and a valid document is imported. -/
theorem C2_import_all_or_nothing_witness :
    importConfig envW w0 (ImportFile.content (FileContent.json jBad)) =
      ⟨Except.error CfgErr.importSchema, w0, []⟩ ∧
    importConfig envW w0 (ImportFile.content (FileContent.json jGood)) =
      ⟨Except.ok (),
       { w0 with config := expandDirs envW.home cImported,
                 file := some (collapseConfig envW.home (expandDirs envW.home cImported)) },
       [Action.writeFile]⟩ :=
  ⟨C2_import_all_or_nothing.2.2.2.1 envW w0 jBad rfl,
   C2_import_all_or_nothing.2.2.2.2 envW w0 jGood cImported rfl rfl⟩

/-- Helper: a single addRepo step preserves duplicate-freedom of the
registry names, whatever the oracle outcomes. -/
theorem addRepo_preserves_nodup (env : Env) (w : World) (repo : Repo)
    (h : (w.config.repos.map Repo.name).Nodup) :
    ((addRepo env w repo).world.config.repos.map Repo.name).Nodup := by
  cases hf : w.config.repos.find? (fun r => r.name == repo.name) with
  | some r => simpa [addRepo, hf] using h
  | none =>
    have hnotin : repo.name ∉ w.config.repos.map Repo.name := by
      intro hmem
      obtain ⟨r, hr, hname⟩ := List.mem_map.mp hmem
      have := List.find?_eq_none.mp hf r hr
      simp [hname] at this
    by_cases hv : env.validateOk repo.url
    · by_cases hw : env.writeOk <;>
        simp [addRepo, hf, hv, writeConfig, hw, List.nodup_append, h, hnotin]
    · simpa [addRepo, hf, hv] using h

/-- Claim C1: registry-name uniqueness.  (1) Any sequence of addRepo
calls, from any duplicate-free configuration and under any oracle
outcomes, leaves the registry names duplicate-free.  (2) An addRepo
whose name is already registered fails with AlreadyExists and leaves the
state entirely unchanged (no duplicate, no overwrite, no write, not even
a validation attempt).  (3) A successful addRepo appends the new repo at
the end, preserving insertion order. -/
theorem C1_addRepo_uniqueness :
    (∀ (steps : List (Env × Repo)) (w : World),
        (w.config.repos.map Repo.name).Nodup →
        ((runAddAll w steps).config.repos.map Repo.name).Nodup) ∧
    (∀ (env : Env) (w : World) (repo r : Repo), r ∈ w.config.repos → r.name = repo.name →
        addRepo env w repo = ⟨Except.error (CfgErr.alreadyExists repo.name), w, []⟩) ∧
    (∀ (env : Env) (w : World) (repo r2 : Repo),
        (addRepo env w repo).result = Except.ok r2 →
        (addRepo env w repo).world.config.repos = w.config.repos ++ [repo]) := by
  refine ⟨?_, ?_, ?_⟩
  · intro steps
    induction steps with
    | nil => intro w h; simpa [runAddAll] using h
    | cons s rest ih =>
      intro w h
      have h1 := addRepo_preserves_nodup s.1 w s.2 h
      simpa [runAddAll] using ih _ h1
  · intro env w repo r hr hname
    have hsome : (w.config.repos.find? (fun x => x.name == repo.name)).isSome := by
      rw [List.find?_isSome]
      exact ⟨r, hr, by simp [hname]⟩
    obtain ⟨r0, hr0⟩ := Option.isSome_iff_exists.mp hsome
    simp [addRepo, hr0]
  · intro env w repo r2 hres
    cases hf : w.config.repos.find? (fun r => r.name == repo.name) with
    | some r => simp [addRepo, hf] at hres
    | none =>
      by_cases hv : env.validateOk repo.url
      · by_cases hw : env.writeOk
        · simp [addRepo, hf, hv, writeConfig, hw]
        · simp [addRepo, hf, hv, writeConfig, hw] at hres
      · simp [addRepo, hf, hv] at hres

/-- Witness for C1: a concrete successful sequence stays duplicate-free,
and a duplicate add of "a" fails with AlreadyExists leaving the state
unchanged. -/
theorem C1_addRepo_uniqueness_witness :
    ((runAddAll w0 [(envW, repoB)]).config.repos.map Repo.name).Nodup ∧
    addRepo envW w0 repoA =
      ⟨Except.error (CfgErr.alreadyExists "a"), w0, []⟩ :=
  ⟨C1_addRepo_uniqueness.1 [(envW, repoB)] w0 (by decide),
   C1_addRepo_uniqueness.2.1 envW w0 repoA repoA (by decide) rfl⟩

/-- Counterexample for C3: the live config loader does not degrade to the
default configuration for blank, unparsable, or schema-invalid content —
blank and unparsable content reach the unguarded JSON.parse (an uncaught
exception), and a schema-invalid document propagates the decode error. -/
theorem C3_counterexample :
    onStartLoadConfig envW (ImportFile.content FileContent.blank) =
      Except.error LoadErr.parseDefect ∧
    onStartLoadConfig envW (ImportFile.content FileContent.notJson) =
      Except.error LoadErr.parseDefect ∧
    onStartLoadConfig envW (ImportFile.content (FileContent.json jBad)) =
      Except.error LoadErr.schema := by
  exact ⟨rfl, rfl, rfl⟩

/-- Claim C3 (amended): at process start only an absent config file
degrades to the built-in defaults (which are persisted and returned
expanded); blank or unparsable content raises an uncaught parse
exception, a schema-invalid document raises a schema error, and a read
failure surfaces as a storage error.  The generic JsonStore.load
primitive (used by the bookmark store) is the component that degrades to
its default for absent, blank, unparsable and schema-invalid content,
raising only for read failures. -/
theorem C3_amended_load_behavior :
    (∀ env : Env, env.writeOk = true →
        onStartLoadConfig env ImportFile.absent =
          Except.ok (expandDirs env.home DEFAULT_CONFIG)) ∧
    (∀ env : Env, onStartLoadConfig env ImportFile.readError = Except.error LoadErr.storage) ∧
    (∀ env : Env, onStartLoadConfig env (ImportFile.content FileContent.blank) =
        Except.error LoadErr.parseDefect) ∧
    (∀ env : Env, onStartLoadConfig env (ImportFile.content FileContent.notJson) =
        Except.error LoadErr.parseDefect) ∧
    (∀ (env : Env) (j : Json), decodeConfig j = none →
        onStartLoadConfig env (ImportFile.content (FileContent.json j)) =
          Except.error LoadErr.schema) ∧
    (∀ (env : Env) (j : Json) (c : Config), decodeConfig j = some c →
        onStartLoadConfig env (ImportFile.content (FileContent.json j)) =
          Except.ok (expandDirs env.home c)) ∧
    (∀ (T : Type) (decode : Json → Option T) (d : T),
        jsonStoreLoad decode d ImportFile.absent = Except.ok d ∧
        jsonStoreLoad decode d (ImportFile.content FileContent.blank) = Except.ok d ∧
        jsonStoreLoad decode d (ImportFile.content FileContent.notJson) = Except.ok d ∧
        jsonStoreLoad decode d ImportFile.readError = Except.error LoadErr.storage ∧
        (∀ j : Json, decode j = none →
            jsonStoreLoad decode d (ImportFile.content (FileContent.json j)) = Except.ok d)) := by
  refine ⟨?_, fun env => rfl, fun env => rfl, fun env => rfl, ?_, ?_, ?_⟩
  · intro env hw
    simp [onStartLoadConfig, hw]
  · intro env j h
    simp [onStartLoadConfig, h]
  · intro env j c h
    simp [onStartLoadConfig, h]
  · intro T decode d
    refine ⟨rfl, rfl, rfl, rfl, ?_⟩
    intro j h
    simp [jsonStoreLoad, h]

/-- Witness for C3 (amended), at concrete inputs. -/
theorem C3_amended_load_behavior_witness :
    onStartLoadConfig envW ImportFile.absent =
      Except.ok (expandDirs envW.home DEFAULT_CONFIG) ∧
    onStartLoadConfig envW (ImportFile.content (FileContent.json jBad)) =
      Except.error LoadErr.schema ∧
    jsonStoreLoad decodeConfig cfg0 (ImportFile.content (FileContent.json jBad)) =
      Except.ok cfg0 :=
  ⟨C3_amended_load_behavior.1 envW rfl,
   C3_amended_load_behavior.2.2.2.2.1 envW jBad rfl,
   (C3_amended_load_behavior.2.2.2.2.2.2 Config decodeConfig cfg0).2.2.2.2 jBad rfl⟩

/-- Claim C7: cleanOne for a registered non-"local" repo removes the
clone directory when present (given the removal succeeds) and is a
successful no-op when absent; in every case the in-memory registry and
the persisted config file are untouched (an entry with the name
remains, and no config write happens), and on success the directory no
longer exists. -/
theorem C7_clean_preserves_registry :
    ∀ (env : Env) (w : World) (name : String) (repo : Repo),
      name ≠ "local" →
      w.config.repos.find? (fun r => r.name == name) = some repo →
      (joinPath w.config.reposDirectory repo.name ∈ w.dirs →
          env.removeOk (joinPath w.config.reposDirectory repo.name) = true →
          cleanRepo env w name =
            ⟨Except.ok (),
             { w with dirs := w.dirs.filter (fun d => d != joinPath w.config.reposDirectory repo.name) },
             [Action.removeDir (joinPath w.config.reposDirectory repo.name)]⟩) ∧
      (joinPath w.config.reposDirectory repo.name ∉ w.dirs →
          cleanRepo env w name = ⟨Except.ok (), w, []⟩) ∧
      (cleanRepo env w name).world.config = w.config ∧
      (cleanRepo env w name).world.file = w.file ∧
      Action.writeFile ∉ (cleanRepo env w name).trace ∧
      (∃ r ∈ (cleanRepo env w name).world.config.repos, r.name = name) ∧
      ((cleanRepo env w name).result = Except.ok () →
          joinPath w.config.reposDirectory repo.name ∉ (cleanRepo env w name).world.dirs) := by
  intro env w name repo hlocal hf
  have hb : (name == "local") = false := by
    simpa using hlocal
  have hrepo_mem : repo ∈ w.config.repos := List.mem_of_find?_eq_some hf
  have hrepo_name : repo.name = name := by
    have := List.find?_some hf
    simpa using this
  by_cases hd : joinPath w.config.reposDirectory repo.name ∈ w.dirs
  · by_cases hr : env.removeOk (joinPath w.config.reposDirectory repo.name)
    · have h1 : cleanRepo env w name =
          ⟨Except.ok (),
           { w with dirs := w.dirs.filter (fun d => d != joinPath w.config.reposDirectory repo.name) },
           [Action.removeDir (joinPath w.config.reposDirectory repo.name)]⟩ := by
        simp [cleanRepo, hb, hf, hd, hr]
      refine ⟨fun _ _ => h1, fun hcontra => absurd hd hcontra, ?_, ?_, ?_, ?_, ?_⟩
      · rw [h1]
      · rw [h1]
      · rw [h1]; simp
      · rw [h1]; exact ⟨repo, hrepo_mem, hrepo_name⟩
      · rw [h1]
        intro _ hmem
        have := (List.mem_filter.mp hmem).2
        simp at this
    · have h1 : cleanRepo env w name =
          ⟨Except.error CfgErr.removeFailed, w,
           [Action.removeDir (joinPath w.config.reposDirectory repo.name)]⟩ := by
        simp [cleanRepo, hb, hf, hd, hr]
      refine ⟨fun _ hcontra => absurd hcontra hr,
              fun hcontra => absurd hd hcontra, ?_, ?_, ?_, ?_, ?_⟩
      · rw [h1]
      · rw [h1]
      · rw [h1]; simp
      · rw [h1]; exact ⟨repo, hrepo_mem, hrepo_name⟩
      · rw [h1]; intro hok; simp at hok
  · have h1 : cleanRepo env w name = ⟨Except.ok (), w, []⟩ := by
      simp [cleanRepo, hb, hf, hd]
    refine ⟨fun hcontra _ => absurd hcontra hd, fun _ => h1, ?_, ?_, ?_, ?_, ?_⟩
    · rw [h1]
    · rw [h1]
    · rw [h1]; simp
    · rw [h1]; exact ⟨repo, hrepo_mem, hrepo_name⟩
    · rw [h1]; intro _; exact hd

/-- Witness for C7: cleaning "a" when its directory exists removes the
directory and leaves the registry entry and config file in place. -/
theorem C7_clean_preserves_registry_witness :
    cleanRepo envW w0dir "a" =
      ⟨Except.ok (),
       { w0dir with dirs := w0dir.dirs.filter (fun d => d != joinPath w0dir.config.reposDirectory repoA.name) },
       [Action.removeDir (joinPath w0dir.config.reposDirectory repoA.name)]⟩ :=
  (C7_clean_preserves_registry envW w0dir "a" repoA (by decide) (by decide)).1
    (by decide) rfl

/-- Claim C6: for a registered non-"local" repo, the choice between clone
and pull is decided solely by whether reposDirectory/<name> exists: when
it exists the repo is pulled there (failure PullFailed), when it does
not it is cloned from repo.url at repo.branch (failure CloneFailed).
Nothing else about the directory is consulted. -/
theorem C6_clone_or_pull_by_dir :
    ∀ (env : Env) (w : World) (name : String) (repo : Repo),
      name ≠ "local" →
      w.config.repos.find? (fun r => r.name == name) = some repo →
      (joinPath w.config.reposDirectory repo.name ∈ w.dirs →
          (env.pullOk (joinPath w.config.reposDirectory repo.name) repo.branch = true →
              cloneOrUpdateOneRepoLocally env w name =
                ⟨Except.ok repo, w,
                 [Action.lookup name,
                  Action.pull (joinPath w.config.reposDirectory repo.name) repo.branch]⟩) ∧
          (env.pullOk (joinPath w.config.reposDirectory repo.name) repo.branch = false →
              cloneOrUpdateOneRepoLocally env w name =
                ⟨Except.error CfgErr.pullFailed, w,
                 [Action.lookup name,
                  Action.pull (joinPath w.config.reposDirectory repo.name) repo.branch]⟩)) ∧
      (joinPath w.config.reposDirectory repo.name ∉ w.dirs →
          (env.cloneOk (joinPath w.config.reposDirectory repo.name) repo.url repo.branch = true →
              cloneOrUpdateOneRepoLocally env w name =
                ⟨Except.ok repo,
                 { w with dirs := joinPath w.config.reposDirectory repo.name :: w.dirs },
                 [Action.lookup name,
                  Action.clone (joinPath w.config.reposDirectory repo.name) repo.url repo.branch]⟩) ∧
          (env.cloneOk (joinPath w.config.reposDirectory repo.name) repo.url repo.branch = false →
              cloneOrUpdateOneRepoLocally env w name =
                ⟨Except.error CfgErr.cloneFailed, w,
                 [Action.lookup name,
                  Action.clone (joinPath w.config.reposDirectory repo.name) repo.url repo.branch]⟩)) := by
  intro env w name repo hlocal hf
  have hb : (name == "local") = false := by
    simpa using hlocal
  constructor
  · intro hd
    constructor
    · intro hp
      simp [cloneOrUpdateOneRepoLocally, hb, hf, hd, hp]
    · intro hp
      simp [cloneOrUpdateOneRepoLocally, hb, hf, hd, hp]
  · intro hd
    constructor
    · intro hc
      simp [cloneOrUpdateOneRepoLocally, hb, hf, hd, hc]
    · intro hc
      simp [cloneOrUpdateOneRepoLocally, hb, hf, hd, hc]

/-- Witness for C6: with the clone directory present the repo is pulled;
with it absent the repo is cloned. -/
theorem C6_clone_or_pull_by_dir_witness :
    cloneOrUpdateOneRepoLocally envW w0dir "a" =
      ⟨Except.ok repoA, w0dir,
       [Action.lookup "a",
        Action.pull (joinPath w0dir.config.reposDirectory repoA.name) repoA.branch]⟩ ∧
    cloneOrUpdateOneRepoLocally envW w0 "a" =
      ⟨Except.ok repoA,
       { w0 with dirs := joinPath w0.config.reposDirectory repoA.name :: w0.dirs },
       [Action.lookup "a",
        Action.clone (joinPath w0.config.reposDirectory repoA.name) repoA.url repoA.branch]⟩ :=
  ⟨((C6_clone_or_pull_by_dir envW w0dir "a" repoA (by decide) (by decide)).1 (by decide)).1 rfl,
   ((C6_clone_or_pull_by_dir envW w0 "a" repoA (by decide) (by decide)).2 (by decide)).1 rfl⟩

/-- Counterexample for C8: with exit code 0 and the garbled two-field
output "x y", the source assigns parseInt("x") and parseInt("y"), which
are NaN — the counters are NOT reported as 0. -/
theorem C8_counterexample :
    getRepoStatusModel { statusOutput := "", revExitCode := 0, revOutput := "x y" } =
      { dirty := false, ahead := none, behind := none } ∧
    (none : Option Int) ≠ some 0 := by
  exact ⟨by decide, by decide⟩

/-- Claim C8 (amended): a non-zero rev-list exit, or output with fewer
than two whitespace-separated fields, defaults both counters to 0; with
exit 0 and at least two fields the counters are JS parseInt of the first
two fields (NaN, not 0, when a field has no leading digits); dirty is
true exactly when the trimmed porcelain output is nonempty. -/
theorem C8_status_degrades :
    ∀ g : GitStatusOutput,
      (g.revExitCode ≠ 0 →
          (getRepoStatusModel g).ahead = some 0 ∧ (getRepoStatusModel g).behind = some 0) ∧
      ((jsSplitWs (jsTrim g.revOutput.data)).length < 2 →
          (getRepoStatusModel g).ahead = some 0 ∧ (getRepoStatusModel g).behind = some 0) ∧
      (g.revExitCode = 0 → 2 ≤ (jsSplitWs (jsTrim g.revOutput.data)).length →
          (getRepoStatusModel g).ahead = jsParseIntL ((jsSplitWs (jsTrim g.revOutput.data)).getD 0 []) ∧
          (getRepoStatusModel g).behind = jsParseIntL ((jsSplitWs (jsTrim g.revOutput.data)).getD 1 [])) ∧
      ((getRepoStatusModel g).dirty = true ↔ jsTrim g.statusOutput.data ≠ []) := by
  intro g
  refine ⟨?_, ?_, ?_, ?_⟩
  · intro h
    have hb : (g.revExitCode == 0) = false := by
      simpa using h
    simp [getRepoStatusModel, hb]
  · intro h
    have hb : decide (2 ≤ (jsSplitWs (jsTrim g.revOutput.data)).length) = false := by
      simpa using Nat.not_le_of_lt h
    simp [getRepoStatusModel, hb]
  · intro h0 h2
    have hb : (g.revExitCode == 0) = true := by simpa using h0
    have hb2 : decide (2 ≤ (jsSplitWs (jsTrim g.revOutput.data)).length) = true := by
      simpa using h2
    simp [getRepoStatusModel, hb, hb2]
  · have hlen : 0 < (jsTrim g.statusOutput.data).length ↔ jsTrim g.statusOutput.data ≠ [] :=
      List.length_pos
    rw [← hlen]
    by_cases hcond :
        (g.revExitCode == 0 && decide (2 ≤ (jsSplitWs (jsTrim g.revOutput.data)).length)) = true
    · simp [getRepoStatusModel, hcond]
    · simp [getRepoStatusModel, hcond]

/-- Witness for C8 (amended), at concrete subprocess outputs: a failed
rev-list defaults to 0/0, a numeric two-field output is parsed, and a
modified tracked file makes the status dirty. -/
theorem C8_status_degrades_witness :
    ((getRepoStatusModel { statusOutput := "", revExitCode := 128, revOutput := "" }).ahead = some 0 ∧
      (getRepoStatusModel { statusOutput := "", revExitCode := 128, revOutput := "" }).behind = some 0) ∧
    ((getRepoStatusModel { statusOutput := " M a.txt", revExitCode := 0, revOutput := "1 2" }).ahead =
        jsParseIntL ((jsSplitWs (jsTrim ("1 2" : String).data)).getD 0 []) ∧
      (getRepoStatusModel { statusOutput := " M a.txt", revExitCode := 0, revOutput := "1 2" }).behind =
        jsParseIntL ((jsSplitWs (jsTrim ("1 2" : String).data)).getD 1 [])) ∧
    ((getRepoStatusModel { statusOutput := " M a.txt", revExitCode := 0, revOutput := "1 2" }).dirty = true ↔
      jsTrim (" M a.txt" : String).data ≠ []) := by
  refine ⟨(C8_status_degrades _).1 (by decide), ?_, ?_⟩
  · exact (C8_status_degrades { statusOutput := " M a.txt", revExitCode := 0, revOutput := "1 2" }).2.2.1
      rfl (by decide)
  · exact (C8_status_degrades { statusOutput := " M a.txt", revExitCode := 0, revOutput := "1 2" }).2.2.2

/-- Unpacking of goodSeg. -/
theorem goodSeg_props (s : List Char) (h : NodePath.goodSeg s = true) :
    s ≠ [] ∧ s ≠ ['.'] ∧ s ≠ ['.', '.'] ∧ '/' ∉ s := by
  simp only [NodePath.goodSeg, Bool.and_eq_true] at h
  obtain ⟨⟨⟨e1, e2⟩, e3⟩, e4⟩ := h
  refine ⟨?_, ?_, ?_, ?_⟩
  · intro heq; subst heq; simp at e1
  · intro heq; subst heq; simp at e2
  · intro heq; subst heq; simp at e3
  · intro hmem
    have hc : List.elem '/' s = true := List.elem_eq_true_of_mem hmem
    have hcc : s.contains '/' = true := hc
    rw [hcc] at e4
    simp at e4

/-- splitSeg of a separator-free list is that single segment. -/
theorem splitSeg_no_sep (s : List Char) (h : '/' ∉ s) : NodePath.splitSeg s = [s] := by
  induction s with
  | nil => rfl
  | cons c rest ih =>
    have hc : c ≠ '/' := fun heq => h (heq ▸ List.mem_cons_self c rest)
    have hrest : '/' ∉ rest := fun hmem => h (List.mem_cons_of_mem c hmem)
    simp [NodePath.splitSeg, hc, ih hrest]

/-- splitSeg splits at the first separator after a separator-free chunk. -/
theorem splitSeg_sep_append (s t : List Char) (h : '/' ∉ s) :
    NodePath.splitSeg (s ++ '/' :: t) = s :: NodePath.splitSeg t := by
  induction s with
  | nil => simp [NodePath.splitSeg]
  | cons c rest ih =>
    have hc : c ≠ '/' := fun heq => h (heq ▸ List.mem_cons_self c rest)
    have hrest : '/' ∉ rest := fun hmem => h (List.mem_cons_of_mem c hmem)
    simp [NodePath.splitSeg, hc, ih hrest]

/-- splitSeg is a left inverse of intercalateSlash on separator-free segments. -/
theorem splitSeg_intercalate (segs : List (List Char)) (h1 : segs ≠ [])
    (h2 : ∀ s ∈ segs, '/' ∉ s) :
    NodePath.splitSeg (NodePath.intercalateSlash segs) = segs := by
  induction segs with
  | nil => exact absurd rfl h1
  | cons s rest ih =>
    cases rest with
    | nil =>
      simpa [NodePath.intercalateSlash] using
        splitSeg_no_sep s (h2 s (List.mem_cons_self s []))
    | cons s2 r2 =>
      have hs : '/' ∉ s := h2 s (List.mem_cons_self s (s2 :: r2))
      have hrest : ∀ x ∈ s2 :: r2, '/' ∉ x := fun x hx => h2 x (List.mem_cons_of_mem s hx)
      show NodePath.splitSeg (s ++ '/' :: NodePath.intercalateSlash (s2 :: r2)) = s :: s2 :: r2
      rw [splitSeg_sep_append s _ hs, ih (by simp) hrest]

/-- Resolution leaves a good segment untouched: it is just pushed. -/
theorem resolveStep_good (b : Bool) (acc : List (List Char)) (s : List Char)
    (h : NodePath.goodSeg s = true) :
    NodePath.resolveStep b acc s = acc ++ [s] := by
  obtain ⟨h1, h2, h3, _⟩ := goodSeg_props s h
  simp [NodePath.resolveStep, h1, h2, h3]

/-- Folding resolveStep over good segments appends them to the stack. -/
theorem foldl_resolveStep_good (b : Bool) (segs : List (List Char)) :
    ∀ acc : List (List Char), (∀ s ∈ segs, NodePath.goodSeg s = true) →
      segs.foldl (NodePath.resolveStep b) acc = acc ++ segs := by
  induction segs with
  | nil => intro acc _; simp
  | cons s rest ih =>
    intro acc h
    rw [List.foldl_cons, resolveStep_good b acc s (h s (List.mem_cons_self s rest)),
      ih (acc ++ [s]) (fun x hx => h x (List.mem_cons_of_mem s hx))]
    simp

/-- An intercalation of good segments is nonempty. -/
theorem intercalate_ne_nil (segs : List (List Char)) (h1 : segs ≠ [])
    (h2 : ∀ s ∈ segs, NodePath.goodSeg s = true) :
    NodePath.intercalateSlash segs ≠ [] := by
  cases segs with
  | nil => exact absurd rfl h1
  | cons s rest =>
    cases rest with
    | nil =>
      simpa [NodePath.intercalateSlash] using
        (goodSeg_props s (h2 s (List.mem_cons_self s []))).1
    | cons s2 r2 =>
      show s ++ '/' :: NodePath.intercalateSlash (s2 :: r2) ≠ []
      simp

/-- Intercalation distributes over list append. -/
theorem intercalate_append (hs ps : List (List Char)) (h1 : hs ≠ []) (p1 : ps ≠ []) :
    NodePath.intercalateSlash (hs ++ ps) =
      NodePath.intercalateSlash hs ++ '/' :: NodePath.intercalateSlash ps := by
  induction hs with
  | nil => exact absurd rfl h1
  | cons s rest ih =>
    cases rest with
    | nil =>
      cases ps with
      | nil => exact absurd rfl p1
      | cons p r =>
        show NodePath.intercalateSlash (s :: p :: r) = s ++ '/' :: NodePath.intercalateSlash (p :: r)
        rfl
    | cons s2 r2 =>
      show NodePath.intercalateSlash (s :: (s2 :: r2 ++ ps)) =
        (s ++ '/' :: NodePath.intercalateSlash (s2 :: r2)) ++ '/' :: NodePath.intercalateSlash ps
      have : NodePath.intercalateSlash (s :: (s2 :: r2 ++ ps)) =
          s ++ '/' :: NodePath.intercalateSlash (s2 :: r2 ++ ps) := by
        cases r2 <;> rfl
      rw [this, ih (by simp)]
      simp

/-- The last character of an intercalation of good segments comes from one
of the segments. -/
theorem intercalate_getLast_good (segs : List (List Char)) (h1 : segs ≠ [])
    (h2 : ∀ s ∈ segs, NodePath.goodSeg s = true) :
    ∃ s c, s ∈ segs ∧ (NodePath.intercalateSlash segs).getLast? = some c ∧ c ∈ s := by
  induction segs with
  | nil => exact absurd rfl h1
  | cons s rest ih =>
    cases rest with
    | nil =>
      have hs : s ≠ [] := (goodSeg_props s (h2 s (List.mem_cons_self s []))).1
      refine ⟨s, s.getLast hs, List.mem_cons_self s [], ?_, List.getLast_mem hs⟩
      show s.getLast? = some (s.getLast hs)
      exact List.getLast?_eq_getLast s hs
    | cons s2 r2 =>
      obtain ⟨t, c, ht, hc, hmem⟩ := ih (by simp) (fun x hx => h2 x (List.mem_cons_of_mem s hx))
      refine ⟨t, c, List.mem_cons_of_mem s ht, ?_, hmem⟩
      show (s ++ '/' :: NodePath.intercalateSlash (s2 :: r2)).getLast? = some c
      rw [show ('/' :: NodePath.intercalateSlash (s2 :: r2)) =
            ['/'] ++ NodePath.intercalateSlash (s2 :: r2) from rfl]
      rw [List.getLast?_append, List.getLast?_append, hc]
      rfl

/-- normalize is the identity on canonical absolute paths. -/
theorem normalize_canon (segs : List (List Char)) (h1 : segs ≠ [])
    (h2 : ∀ s ∈ segs, NodePath.goodSeg s = true) :
    NodePath.normalize ('/' :: NodePath.intercalateSlash segs) =
      '/' :: NodePath.intercalateSlash segs := by
  have hns := intercalate_ne_nil segs h1 h2
  have hsplit : NodePath.splitSeg ('/' :: NodePath.intercalateSlash segs) = [] :: segs := by
    have := splitSeg_intercalate segs h1 (fun s hs => (goodSeg_props s (h2 s hs)).2.2.2)
    simp [NodePath.splitSeg, this]
  have hres : NodePath.resolveSegs false ([] :: segs) = segs := by
    show ([] :: segs).foldl (NodePath.resolveStep false) [] = segs
    rw [List.foldl_cons]
    have hstep : NodePath.resolveStep false [] [] = [] := rfl
    rw [hstep]
    simpa using foldl_resolveStep_good false segs [] h2
  obtain ⟨s, c, hs, hc, hcs⟩ := intercalate_getLast_good segs h1 h2
  have hcne : c ≠ '/' := fun heq => (goodSeg_props s (h2 s hs)).2.2.2 (heq ▸ hcs)
  have hlast : ('/' :: NodePath.intercalateSlash segs).getLast? = some c := by
    rw [show ('/' :: NodePath.intercalateSlash segs) =
          ['/'] ++ NodePath.intercalateSlash segs from rfl]
    rw [List.getLast?_append, hc]
    rfl
  have htrail : (('/' :: NodePath.intercalateSlash segs).getLast? == some '/') = false := by
    rw [hlast]
    simp [hcne]
  have habs : (('/' :: NodePath.intercalateSlash segs).head? == some '/') = true := by simp
  have hbody : (NodePath.intercalateSlash segs).isEmpty = false := by
    cases hI : NodePath.intercalateSlash segs with
    | nil => exact absurd hI hns
    | cons a t => rfl
  unfold NodePath.normalize
  simp only [List.isEmpty_cons, habs, htrail, hsplit, Bool.not_true, hres, hbody,
    Bool.false_eq_true, if_false, if_true, List.append_nil]

/-- join2 on a canonical absolute base and canonical relative tail is
plain concatenation with a separator. -/
theorem join2_canon (hs ps : List (List Char))
    (h1 : hs ≠ []) (h2 : ∀ s ∈ hs, NodePath.goodSeg s = true)
    (p1 : ps ≠ []) (p2 : ∀ s ∈ ps, NodePath.goodSeg s = true) :
    NodePath.join2 ('/' :: NodePath.intercalateSlash hs) (NodePath.intercalateSlash ps) =
      ('/' :: NodePath.intercalateSlash hs) ++ '/' :: NodePath.intercalateSlash ps := by
  have hne2 : (NodePath.intercalateSlash ps).isEmpty = false := by
    have hns := intercalate_ne_nil ps p1 p2
    cases hI : NodePath.intercalateSlash ps with
    | nil => exact absurd hI hns
    | cons a t => rfl
  have hall : ∀ s ∈ hs ++ ps, NodePath.goodSeg s = true := by
    intro s hsmem
    rcases List.mem_append.mp hsmem with h | h
    · exact h2 s h
    · exact p2 s h
  have hcat : ('/' :: NodePath.intercalateSlash hs) ++ '/' :: NodePath.intercalateSlash ps
      = '/' :: NodePath.intercalateSlash (hs ++ ps) := by
    rw [intercalate_append hs ps h1 p1]
    rfl
  unfold NodePath.join2
  simp only [List.isEmpty_cons, hne2, Bool.false_and, Bool.false_eq_true, if_false]
  rw [hcat, normalize_canon (hs ++ ps) (by simp [h1]) hall]

/-- collapseHome turns a path strictly under home into a tilde path. -/
theorem collapse_under_home (ih r : List Char) :
    NodePath.collapseHome ('/' :: ih) (('/' :: ih) ++ '/' :: r) = '~' :: '/' :: r := by
  have hpre : NodePath.startsWithL (('/' :: ih) ++ '/' :: r) ('/' :: ih) = true := by
    unfold NodePath.startsWithL
    rw [List.take_left]
    exact beq_self_eq_true _
  have hdrop : (('/' :: ih) ++ '/' :: r).drop ('/' :: ih).length = '/' :: r :=
    List.drop_left _ _
  unfold NodePath.collapseHome
  rw [hpre, hdrop]
  rfl

/-- expandHome on a canonical tilde path concatenates home and the tail. -/
theorem expand_tilde (hs ps : List (List Char))
    (h1 : hs ≠ []) (h2 : ∀ s ∈ hs, NodePath.goodSeg s = true)
    (p1 : ps ≠ []) (p2 : ∀ s ∈ ps, NodePath.goodSeg s = true) :
    NodePath.expandHome ('/' :: NodePath.intercalateSlash hs)
        ('~' :: '/' :: NodePath.intercalateSlash ps) =
      ('/' :: NodePath.intercalateSlash hs) ++ '/' :: NodePath.intercalateSlash ps := by
  have hpre : NodePath.startsWithL ('~' :: '/' :: NodePath.intercalateSlash ps) ['~', '/'] = true := by
    simp [NodePath.startsWithL]
  simp only [NodePath.expandHome, hpre, if_true, List.drop_succ_cons, List.drop_zero]
  exact join2_canon hs ps h1 h2 p1 p2

/-- Counterexample for C9: the stored path "~/" (which begins with "~/")
does not survive the expand-then-collapse round trip: it expands to the
home directory itself, which collapses back to "~", not "~/". -/
theorem C9_counterexample :
    NodePath.collapseHome ['/', 'h', 'o', 'm', 'e', '/', 'u']
        (NodePath.expandHome ['/', 'h', 'o', 'm', 'e', '/', 'u'] ['~', '/']) = ['~'] ∧
    (['~'] : List Char) ≠ ['~', '/'] := by
  exact ⟨by decide, by decide⟩

/-- Claim C9 (amended): over a canonical absolute home directory
('/' followed by good segments), expandHome after collapseHome is the
identity on every canonical path strictly under home, and collapseHome
after expandHome is the identity on every stored path "~/rest" whose
rest is a nonempty canonical relative path — but not on arbitrary
strings beginning with "~/" (see the counterexample "~/"). -/
theorem C9_tilde_roundtrip :
    (∀ hs ps : List (List Char),
        NodePath.canonSegs hs = true → NodePath.canonSegs ps = true →
        NodePath.expandHome ('/' :: NodePath.intercalateSlash hs)
            (NodePath.collapseHome ('/' :: NodePath.intercalateSlash hs)
              (('/' :: NodePath.intercalateSlash hs) ++ '/' :: NodePath.intercalateSlash ps)) =
          ('/' :: NodePath.intercalateSlash hs) ++ '/' :: NodePath.intercalateSlash ps) ∧
    (∀ hs ps : List (List Char),
        NodePath.canonSegs hs = true → NodePath.canonSegs ps = true →
        NodePath.collapseHome ('/' :: NodePath.intercalateSlash hs)
            (NodePath.expandHome ('/' :: NodePath.intercalateSlash hs)
              ('~' :: '/' :: NodePath.intercalateSlash ps)) =
          '~' :: '/' :: NodePath.intercalateSlash ps) := by
  have hunpack : ∀ segs : List (List Char), NodePath.canonSegs segs = true →
      segs ≠ [] ∧ ∀ s ∈ segs, NodePath.goodSeg s = true := by
    intro segs h
    simp only [NodePath.canonSegs, Bool.and_eq_true] at h
    obtain ⟨e1, e2⟩ := h
    constructor
    · intro heq; subst heq; simp at e1
    · intro s hs
      exact (List.all_eq_true.mp e2) s hs
  constructor
  · intro hs ps hcanon pcanon
    obtain ⟨h1, h2⟩ := hunpack hs hcanon
    obtain ⟨p1, p2⟩ := hunpack ps pcanon
    rw [collapse_under_home, expand_tilde hs ps h1 h2 p1 p2]
  · intro hs ps hcanon pcanon
    obtain ⟨h1, h2⟩ := hunpack hs hcanon
    obtain ⟨p1, p2⟩ := hunpack ps pcanon
    rw [expand_tilde hs ps h1 h2 p1 p2, collapse_under_home]

/-- Witness for C9 (amended) at home "/home/u" and relative path "a/b". -/
theorem C9_tilde_roundtrip_witness :
    NodePath.expandHome ('/' :: NodePath.intercalateSlash [['h', 'o', 'm', 'e'], ['u']])
        (NodePath.collapseHome ('/' :: NodePath.intercalateSlash [['h', 'o', 'm', 'e'], ['u']])
          (('/' :: NodePath.intercalateSlash [['h', 'o', 'm', 'e'], ['u']]) ++
            '/' :: NodePath.intercalateSlash [['a'], ['b']])) =
      ('/' :: NodePath.intercalateSlash [['h', 'o', 'm', 'e'], ['u']]) ++
        '/' :: NodePath.intercalateSlash [['a'], ['b']] ∧
    NodePath.collapseHome ('/' :: NodePath.intercalateSlash [['h', 'o', 'm', 'e'], ['u']])
        (NodePath.expandHome ('/' :: NodePath.intercalateSlash [['h', 'o', 'm', 'e'], ['u']])
          ('~' :: '/' :: NodePath.intercalateSlash [['a'], ['b']])) =
      '~' :: '/' :: NodePath.intercalateSlash [['a'], ['b']] :=
  ⟨C9_tilde_roundtrip.1 [['h', 'o', 'm', 'e'], ['u']] [['a'], ['b']] (by decide) (by decide),
   C9_tilde_roundtrip.2 [['h', 'o', 'm', 'e'], ['u']] [['a'], ['b']] (by decide) (by decide)⟩

end Btca
